import Mathlib

/-!
A shallow embedding of `src/main.go` of katsubushi-exporter.

The program fetches a memcached-style `STATS` reply from a katsubushi
server, parses it into an info map (`pid`, `version`, both strings) and a
numeric stats map, and republishes the values as Prometheus gauges from a
polling goroutine.

Modelling choices:
* A reply stream is a list of already-scanned lines (what `bufio.Scanner`
  hands back, line terminators stripped), together with a flag saying
  whether the scanner stopped because of a read error (`sc.Err() != nil`).
* Go's `strings.Split(s, " ")` is embedded as `goSplit` below, splitting
  on every single space with no collapsing; it always returns at least
  one token.
* Go's out-of-range slice indexing (`res[1]`, `res[2]` in the source have
  no bounds check) is modelled explicitly: an access past the end of the
  token list produces the `oob` outcome, the analogue of the runtime
  index-out-of-range panic.
* `strconv.ParseFloat(v, 64)` is an external library call; the embedding
  is parameterised over a function `pf : String → Option ℚ` standing for
  it (`some f` models a nil error with result `f`, `none` models a parse
  error).  float64 values are modelled as ℚ since no claim below depends
  on floating-point rounding.  `parseSimpleFloat` is one concrete
  instantiation (decimal naturals only) used for concrete test inputs.
* Go maps are association lists with overwrite-on-insert; reading a
  missing key (or a nil map) yields the zero value, as in Go.
-/

/-- Go map `map[string]string` (the `info` map in the source). -/
abbrev InfoMap := List (String × String)

/-- Go map `map[string]float64` (the `stats` map in the source). -/
abbrev StatMap := List (String × ℚ)

/-- Insertion into an association list, overwriting an existing binding;
models `m[k] = v` on a Go map. -/
def mapInsert {κ α : Type} [DecidableEq κ] : List (κ × α) → κ → α → List (κ × α)
  | [], k, v => [(k, v)]
  | (k', v') :: rest, k, v =>
    if k' = k then (k, v) :: rest else (k', v') :: mapInsert rest k v

/-- Association list lookup; `none` models an absent key. -/
def mapLookup {κ α : Type} [DecidableEq κ] : List (κ × α) → κ → Option α
  | [], _ => none
  | (k', v) :: rest, k => if k' = k then some v else mapLookup rest k

/-- Reading a Go `map[string]string` (possibly nil: `none`): a missing key
yields the zero value `""`. -/
def optLookupStr (m : Option InfoMap) (k : String) : String :=
  match m with
  | none => ""
  | some m => (mapLookup m k).getD ""

/-- Reading a Go `map[string]float64` (possibly nil: `none`): a missing key
yields the zero value `0`. -/
def optLookupQ (m : Option StatMap) (k : String) : ℚ :=
  match m with
  | none => 0
  | some m => (mapLookup m k).getD 0

/-- Whether a key is present in a possibly-nil Go `map[string]float64`. -/
def optHasKey (m : Option StatMap) (k : String) : Bool :=
  match m with
  | none => false
  | some m => (mapLookup m k).isSome

/-- Character-list worker for `goSplit`. -/
def goSplitAux : List Char → List (List Char)
  | [] => [[]]
  | c :: rest =>
    if c = ' ' then [] :: goSplitAux rest
    else
      match goSplitAux rest with
      | r :: rs => (c :: r) :: rs
      | [] => [[c]]

/-- Go's `strings.Split(s, " ")`: split around every single space, no
collapsing of adjacent separators; `""` yields `[""]`. -/
def goSplit (s : String) : List String :=
  (goSplitAux s.data).map List.asString

/-- The first token of a line, `res[0]` in the source (safe because
`goSplit` never returns an empty list). -/
def firstToken (s : String) : String :=
  (goSplit s).headI

/-- Outcome of handling one non-`END` line of the reply inside the scan
loop of `getKatsubushiStats`. -/
inductive LineOutcome : Type
  | cont (info : InfoMap) (stats : StatMap)
  | err (tok : String)
  | oob
deriving DecidableEq

/-- One non-`END` line of the scan loop body (source lines 135-146):
`res := strings.Split(s, " ")`; if `res[0] == "STAT"` then either store
`res[2]` verbatim in `info` under `res[1]` (for `pid`/`version`) or parse
`res[2]` as a float into `stats`, aborting on parse failure; any other
first token is ignored.  Out-of-range accesses give `oob`. -/
def handleLine (pf : String → Option ℚ) (info : InfoMap) (stats : StatMap)
    (s : String) : LineOutcome :=
  let res := goSplit s
  match res.get? 0 with
  | none => .oob
  | some t0 =>
    if t0 = "STAT" then
      match res.get? 1 with
      | none => .oob
      | some t1 =>
        if t1 = "pid" ∨ t1 = "version" then
          match res.get? 2 with
          | none => .oob
          | some t2 => .cont (mapInsert info t1 t2) stats
        else
          match res.get? 2 with
          | none => .oob
          | some t2 =>
            match pf t2 with
            | some f => .cont info (mapInsert stats t1 f)
            | none => .err t2
    else .cont info stats

/-- The errors `getKatsubushiStats` can return: a dial failure, a
`strconv.ParseFloat` failure on the given token, or a scanner read
error. -/
inductive GoError : Type
  | dialErr
  | parseErr (tok : String)
  | scanErr
deriving DecidableEq

/-- The return of `getKatsubushiStats`: the triple
`(map[string]string, map[string]float64, error)` with `none` modelling a
nil map / nil error, or `oob` modelling an index-out-of-range panic. -/
inductive FetchOutcome : Type
  | ret (info : Option InfoMap) (stats : Option StatMap) (err : Option GoError)
  | oob
deriving DecidableEq

/-- The scan loop of `getKatsubushiStats` (source lines 129-149): read
lines until one equals `END` or the stream ends; on normal exit return the
accumulated maps together with `sc.Err()` (a scan error only if the
stream ended because of a read error, not if we broke on `END`); a float
parse failure returns `(nil, nil, err)` at once. -/
def scanLoop (pf : String → Option ℚ) :
    List String → InfoMap → StatMap → Bool → FetchOutcome
  | [], info, stats, readErr =>
    .ret (some info) (some stats) (if readErr then some .scanErr else none)
  | s :: rest, info, stats, readErr =>
    if s = "END" then .ret (some info) (some stats) none
    else
      match handleLine pf info stats s with
      | .cont info' stats' => scanLoop pf rest info' stats' readErr
      | .err tok => .ret none none (some (.parseErr tok))
      | .oob => .oob

/-- What the network dial produced: a connection carrying the reply lines
(and whether the scanner will end in a read error), or a dial failure. -/
inductive DialOutcome : Type
  | ok (lines : List String) (readErr : Bool)
  | dialFailure
deriving DecidableEq

/-- `getKatsubushiStats` (source lines 115-150): on dial failure return
`(nil, nil, err)`; otherwise send `STATS\r\n` and run the scan loop over
the reply with empty accumulators. -/
def getKatsubushiStats (pf : String → Option ℚ) : DialOutcome → FetchOutcome
  | .dialFailure => .ret none none (some .dialErr)
  | .ok lines readErr => scanLoop pf lines [] [] readErr

/-- `retryDuration` (source line 23), seconds. -/
def retryDuration : ℕ := 1

/-- `defaultMetricsInterval` (source line 19), seconds. -/
def defaultMetricsInterval : ℕ := 30

/-- The gauge state of the process: the labelled `katsubushi_info` gauge
vector (keyed by the (version, pid) label pair) and the six scalar
gauges. -/
structure GaugeState : Type where
  katsubushiInfo : List ((String × String) × ℚ)
  katsubushiUptime : ℚ
  katsubushiCurrConnections : ℚ
  katsubushiTotalConnections : ℚ
  katsubushiCmdGet : ℚ
  katsubushiGetHits : ℚ
  katsubushiGetMisses : ℚ
deriving DecidableEq

/-- What one iteration of the poll goroutine does after the fetch: sleep
the retry delay without publishing, publish and sleep the metrics
interval, or crash the process (a panic in the goroutine). -/
inductive PollAction : Type
  | retryAfter (seconds : ℕ)
  | publishAfter (seconds : ℕ)
  | crashProcess
deriving DecidableEq

/-- One iteration of the polling goroutine in `main` (source lines
157-182): on a non-nil error, or on empty `info["version"]` or
`info["pid"]`, log and sleep `retryDuration` without touching the gauges;
otherwise set all seven gauges from the fetched maps (missing stat keys
read as 0) and sleep `metricsInterval`. -/
def pollIteration (metricsInterval : ℕ) (g : GaugeState)
    (fetch : FetchOutcome) : GaugeState × PollAction :=
  match fetch with
  | .oob => (g, .crashProcess)
  | .ret info stats err =>
    match err with
    | some _ => (g, .retryAfter retryDuration)
    | none =>
      if optLookupStr info "version" = "" ∨ optLookupStr info "pid" = "" then
        (g, .retryAfter retryDuration)
      else
        ({ katsubushiInfo := mapInsert g.katsubushiInfo
             (optLookupStr info "version", optLookupStr info "pid") 1,
           katsubushiUptime := optLookupQ stats "uptime",
           katsubushiCurrConnections := optLookupQ stats "curr_connections",
           katsubushiTotalConnections := optLookupQ stats "total_connections",
           katsubushiCmdGet := optLookupQ stats "cmd_get",
           katsubushiGetHits := optLookupQ stats "get_hits",
           katsubushiGetMisses := optLookupQ stats "get_misses" },
         .publishAfter metricsInterval)

/-- A sample instantiation of the float parser for concrete test inputs:
accepts decimal natural numbers only. -/
def parseSimpleFloat (s : String) : Option ℚ :=
  if s.data ≠ [] ∧ s.data.all (fun c => c.isDigit) then
    some ((s.data.foldl (fun n c => n * 10 + (c.toNat - Char.toNat '0')) 0 : ℕ) : ℚ)
  else none

/-- A run of the scan loop that consumes every line without meeting `END`,
a parse error or an out-of-range access, returning the accumulated maps.
Used to phrase the reach-conditions of the theorems below. -/
def scanClean (pf : String → Option ℚ) :
    List String → InfoMap → StatMap → Option (InfoMap × StatMap)
  | [], info, stats => some (info, stats)
  | s :: rest, info, stats =>
    if s = "END" then none
    else
      match handleLine pf info stats s with
      | .cont info' stats' => scanClean pf rest info' stats'
      | .err _ => none
      | .oob => none

/-- The gauge state at process start: no info labels set, all scalar
gauges at the Prometheus gauge default 0. -/
def initialGauges : GaugeState :=
  { katsubushiInfo := [],
    katsubushiUptime := 0,
    katsubushiCurrConnections := 0,
    katsubushiTotalConnections := 0,
    katsubushiCmdGet := 0,
    katsubushiGetHits := 0,
    katsubushiGetMisses := 0 }

/-- A gauge state with nonzero scalar values left over from an earlier
cycle, used to check that absent keys publish 0 rather than stale
values. -/
def staleGauges : GaugeState :=
  { katsubushiInfo := [(("1.2.3", "42"), 1)],
    katsubushiUptime := 7,
    katsubushiCurrConnections := 7,
    katsubushiTotalConnections := 7,
    katsubushiCmdGet := 7,
    katsubushiGetHits := 7,
    katsubushiGetMisses := 7 }

/-! ### Helper lemmas -/

theorem scanLoop_nil (pf : String → Option ℚ) (info : InfoMap)
    (stats : StatMap) (readErr : Bool) :
    scanLoop pf [] info stats readErr =
      .ret (some info) (some stats)
        (if readErr then some .scanErr else none) := rfl

theorem scanLoop_cons (pf : String → Option ℚ) (s : String)
    (rest : List String) (info : InfoMap) (stats : StatMap) (readErr : Bool) :
    scanLoop pf (s :: rest) info stats readErr =
      if s = "END" then .ret (some info) (some stats) none
      else
        match handleLine pf info stats s with
        | .cont info' stats' => scanLoop pf rest info' stats' readErr
        | .err tok => .ret none none (some (.parseErr tok))
        | .oob => .oob := rfl

theorem scanClean_nil (pf : String → Option ℚ) (info : InfoMap)
    (stats : StatMap) :
    scanClean pf [] info stats = some (info, stats) := rfl

theorem scanClean_cons (pf : String → Option ℚ) (s : String)
    (rest : List String) (info : InfoMap) (stats : StatMap) :
    scanClean pf (s :: rest) info stats =
      if s = "END" then none
      else
        match handleLine pf info stats s with
        | .cont info' stats' => scanClean pf rest info' stats'
        | .err _ => none
        | .oob => none := rfl

theorem goSplitAux_ne_nil (cs : List Char) : goSplitAux cs ≠ [] := by
  induction cs with
  | nil => simp [goSplitAux]
  | cons c rest ih =>
    unfold goSplitAux
    by_cases hc : c = ' '
    · simp [hc]
    · simp only [hc, if_false]
      cases h : goSplitAux rest with
      | nil => simp
      | cons r rs => simp

theorem goSplit_ne_nil (s : String) : goSplit s ≠ [] := by
  unfold goSplit
  intro h
  exact goSplitAux_ne_nil s.data (List.map_eq_nil_iff.mp h)

theorem goSplit_get_zero (s : String) :
    (goSplit s).get? 0 = some (firstToken s) := by
  unfold firstToken
  cases h : goSplit s with
  | nil => exact absurd h (goSplit_ne_nil s)
  | cons t ts => simp [List.headI]

theorem mem_mapInsert {κ α : Type} [DecidableEq κ] (m : List (κ × α))
    (k : κ) (v : α) (p : κ × α) (h : p ∈ mapInsert m k v) :
    p ∈ m ∨ p = (k, v) := by
  induction m with
  | nil =>
    simp [mapInsert] at h
    exact Or.inr h
  | cons q rest ih =>
    obtain ⟨k', v'⟩ := q
    unfold mapInsert at h
    by_cases hk : k' = k
    · simp only [hk, if_true] at h
      rcases List.mem_cons.mp h with h1 | h1
      · exact Or.inr h1
      · exact Or.inl (List.mem_cons_of_mem _ h1)
    · simp only [hk, if_false] at h
      rcases List.mem_cons.mp h with h1 | h1
      · exact Or.inl (List.mem_cons.mpr (Or.inl h1))
      · rcases ih h1 with h2 | h2
        · exact Or.inl (List.mem_cons_of_mem _ h2)
        · exact Or.inr h2

theorem optLookupQ_of_not_hasKey (m : Option StatMap) (k : String)
    (h : optHasKey m k = false) : optLookupQ m k = 0 := by
  cases m with
  | none => rfl
  | some m =>
    simp only [optHasKey] at h
    simp only [optLookupQ]
    cases hl : mapLookup m k with
    | none => simp [hl]
    | some v => rw [hl] at h; simp at h

theorem scanLoop_append_of_scanClean (pf : String → Option ℚ)
    (pre : List String) :
    ∀ info stats info' stats',
      scanClean pf pre info stats = some (info', stats') →
      ∀ rest readErr,
        scanLoop pf (pre ++ rest) info stats readErr =
          scanLoop pf rest info' stats' readErr := by
  induction pre with
  | nil =>
    intro info stats info' stats' h rest readErr
    unfold scanClean at h
    simp at h
    obtain ⟨h1, h2⟩ := h
    subst h1; subst h2
    rfl
  | cons s pre ih =>
    intro info stats info' stats' h rest readErr
    rw [scanClean_cons] at h
    by_cases hEnd : s = "END"
    · simp [hEnd] at h
    · simp only [hEnd, if_false] at h
      cases hl : handleLine pf info stats s with
      | cont i2 s2 =>
        rw [hl] at h
        rw [List.cons_append, scanLoop_cons]
        simp only [hEnd, if_false, hl]
        exact ih i2 s2 info' stats' h rest readErr
      | err tok => rw [hl] at h; simp at h
      | oob => rw [hl] at h; simp at h

theorem handleLine_non_stat (pf : String → Option ℚ) (info : InfoMap)
    (stats : StatMap) (s : String) (h : firstToken s ≠ "STAT") :
    handleLine pf info stats s = .cont info stats := by
  simp only [handleLine, goSplit_get_zero]
  simp [h]

/-! ### Claim theorems -/

/-- C1: the claim says an under-length `STAT` line (fewer than 3 tokens)
must not cause an out-of-bounds failure and is treated as ignorable.  The
code indexes `res[1]` and `res[2]` without any bounds check, so the lines
`STAT` and `STAT key` make `getKatsubushiStats` panic with an
index-out-of-range error instead of being ignored. -/
theorem stat_short_line_out_of_bounds :
    scanLoop parseSimpleFloat ["STAT"] [] [] false = .oob ∧
    scanLoop parseSimpleFloat ["STAT key"] [] [] false = .oob ∧
    getKatsubushiStats parseSimpleFloat (.ok ["STAT", "END"] false) = .oob := by
  decide

/-- C10: splitting any line (the empty line included) on single spaces
yields at least one token, so reading the first token is always safe, and
a line whose first token is not `STAT` is ignored without the second or
third token ever being indexed. -/
theorem split_nonempty_first_token_safe (s : String) :
    0 < (goSplit s).length ∧
      (∀ (pf : String → Option ℚ) (info : InfoMap) (stats : StatMap),
        firstToken s ≠ "STAT" → handleLine pf info stats s = .cont info stats) := by
  constructor
  · exact List.length_pos.mpr (goSplit_ne_nil s)
  · intro pf info stats hne
    exact handleLine_non_stat pf info stats s hne

/-- C10 witness: the empty line splits into one (empty) token and is
ignored without any out-of-bounds access. -/
theorem split_nonempty_first_token_safe_witness :
    0 < (goSplit "").length ∧
      handleLine parseSimpleFloat [] [] "" = .cont [] [] :=
  ⟨(split_nonempty_first_token_safe "").1,
   (split_nonempty_first_token_safe "").2 parseSimpleFloat [] [] (by decide)⟩

/-- C6: a line other than `END` whose first token is not `STAT` is
silently ignored: it produces no error, contributes nothing to either map,
and the scan continues over the rest of the stream with its state
unchanged. -/
theorem non_stat_line_ignored (pf : String → Option ℚ) (s : String)
    (rest : List String) (info : InfoMap) (stats : StatMap) (readErr : Bool)
    (hEnd : s ≠ "END") (hTok : firstToken s ≠ "STAT") :
    handleLine pf info stats s = .cont info stats ∧
      scanLoop pf (s :: rest) info stats readErr =
        scanLoop pf rest info stats readErr := by
  have hline := handleLine_non_stat pf info stats s hTok
  refine ⟨hline, ?_⟩
  rw [scanLoop_cons]
  simp [hEnd, hline]

/-- C6 witness: the line `VALUE foo` is ignored and scanning continues. -/
theorem non_stat_line_ignored_witness :
    handleLine parseSimpleFloat [] [] "VALUE foo" = .cont [] [] ∧
      scanLoop parseSimpleFloat ["VALUE foo", "END"] [] [] false =
        scanLoop parseSimpleFloat ["END"] [] [] false :=
  non_stat_line_ignored parseSimpleFloat "VALUE foo" ["END"] [] [] false
    (by decide) (by decide)

/-- C2: if the scan reaches, after a cleanly processed prefix, a `STAT`
line whose key is neither `pid` nor `version` and whose value token fails
float parsing, the whole fetch aborts with that parse error and nil maps
(nothing from the reply survives), and the poll iteration for that cycle
publishes nothing: the gauges are unchanged and the loop retries. -/
theorem parse_failure_aborts_fetch (pf : String → Option ℚ)
    (pre post : List String) (s : String) (info : InfoMap) (stats : StatMap)
    (k v : String) (readErr : Bool) (mi : ℕ) (g : GaugeState)
    (hpre : scanClean pf pre [] [] = some (info, stats))
    (h0 : (goSplit s).get? 0 = some "STAT")
    (h1 : (goSplit s).get? 1 = some k)
    (h2 : (goSplit s).get? 2 = some v)
    (hk1 : k ≠ "pid") (hk2 : k ≠ "version")
    (hv : pf v = none) :
    getKatsubushiStats pf (.ok (pre ++ s :: post) readErr) =
        .ret none none (some (.parseErr v)) ∧
      pollIteration mi g (.ret none none (some (.parseErr v))) =
        (g, .retryAfter retryDuration) := by
  have hEnd : s ≠ "END" := by
    intro hs
    subst hs
    have hsplit : goSplit "END" = ["END"] := by decide
    rw [hsplit] at h0
    simp at h0
  have hline : handleLine pf info stats s = .err v := by
    simp only [handleLine, h0, h1, h2]
    simp [hk1, hk2, hv]
  constructor
  · show scanLoop pf (pre ++ s :: post) [] [] readErr = _
    rw [scanLoop_append_of_scanClean pf pre [] [] info stats hpre
      (s :: post) readErr]
    rw [scanLoop_cons]
    simp [hEnd, hline]
  · rfl

/-- C2 witness: `STAT uptime abc` after a valid `version` line aborts the
fetch with the parse error on `abc`, and the cycle publishes nothing. -/
theorem parse_failure_aborts_fetch_witness :
    getKatsubushiStats parseSimpleFloat
        (.ok (["STAT version 1.0"] ++ "STAT uptime abc" :: ["END"]) false) =
        .ret none none (some (.parseErr "abc")) ∧
      pollIteration defaultMetricsInterval initialGauges
          (.ret none none (some (.parseErr "abc"))) =
        (initialGauges, .retryAfter retryDuration) :=
  parse_failure_aborts_fetch parseSimpleFloat ["STAT version 1.0"] ["END"]
    "STAT uptime abc" [("version", "1.0")] [] "uptime" "abc" false
    defaultMetricsInterval initialGauges (by decide) (by decide) (by decide)
    (by decide) (by decide) (by decide) (by decide)

/-- C3: on a successful fetch whose info map has an empty (or absent)
`version` or `pid`, the poll iteration publishes none of the seven gauges:
the gauge state is unchanged and the loop sleeps the 1-second retry
delay. -/
theorem missing_identity_skips_publish (mi : ℕ) (g : GaugeState)
    (info : Option InfoMap) (stats : Option StatMap)
    (h : optLookupStr info "version" = "" ∨ optLookupStr info "pid" = "") :
    pollIteration mi g (.ret info stats none) = (g, .retryAfter 1) := by
  simp only [pollIteration]
  rw [if_pos h]
  rfl

/-- C3 witness: a reply that set `version` but never `pid` leaves the
gauges untouched and retries after 1 second. -/
theorem missing_identity_skips_publish_witness :
    pollIteration defaultMetricsInterval staleGauges
        (.ret (some [("version", "1.2.3")]) (some [("uptime", 100)]) none) =
      (staleGauges, .retryAfter 1) :=
  missing_identity_skips_publish defaultMetricsInterval staleGauges
    (some [("version", "1.2.3")]) (some [("uptime", 100)]) (by decide)

/-- C5: when a cycle is published, each of the six scalar stat keys that is
absent from the reply's stats map is published as the numeric value 0 —
not an error and not the gauge's prior value. -/
theorem absent_stat_key_publishes_zero (mi : ℕ) (g : GaugeState)
    (info : Option InfoMap) (stats : Option StatMap)
    (hv : optLookupStr info "version" ≠ "")
    (hp : optLookupStr info "pid" ≠ "") :
    (optHasKey stats "uptime" = false →
      (pollIteration mi g (.ret info stats none)).1.katsubushiUptime = 0) ∧
    (optHasKey stats "curr_connections" = false →
      (pollIteration mi g (.ret info stats none)).1.katsubushiCurrConnections = 0) ∧
    (optHasKey stats "total_connections" = false →
      (pollIteration mi g (.ret info stats none)).1.katsubushiTotalConnections = 0) ∧
    (optHasKey stats "cmd_get" = false →
      (pollIteration mi g (.ret info stats none)).1.katsubushiCmdGet = 0) ∧
    (optHasKey stats "get_hits" = false →
      (pollIteration mi g (.ret info stats none)).1.katsubushiGetHits = 0) ∧
    (optHasKey stats "get_misses" = false →
      (pollIteration mi g (.ret info stats none)).1.katsubushiGetMisses = 0) := by
  have hcond : ¬(optLookupStr info "version" = "" ∨
      optLookupStr info "pid" = "") := by
    simp [hv, hp]
  simp only [pollIteration, if_neg hcond]
  exact ⟨fun hk => optLookupQ_of_not_hasKey _ _ hk,
    fun hk => optLookupQ_of_not_hasKey _ _ hk,
    fun hk => optLookupQ_of_not_hasKey _ _ hk,
    fun hk => optLookupQ_of_not_hasKey _ _ hk,
    fun hk => optLookupQ_of_not_hasKey _ _ hk,
    fun hk => optLookupQ_of_not_hasKey _ _ hk⟩

/-- C5 witness: publishing from a reply whose stats map is empty resets
all six scalar gauges to 0 even though the prior state held 7s. -/
theorem absent_stat_key_publishes_zero_witness :
    (pollIteration defaultMetricsInterval staleGauges
        (.ret (some [("version", "1.2.3"), ("pid", "42")]) (some [])
          none)).1.katsubushiUptime = 0 ∧
    (pollIteration defaultMetricsInterval staleGauges
        (.ret (some [("version", "1.2.3"), ("pid", "42")]) (some [])
          none)).1.katsubushiCurrConnections = 0 ∧
    (pollIteration defaultMetricsInterval staleGauges
        (.ret (some [("version", "1.2.3"), ("pid", "42")]) (some [])
          none)).1.katsubushiTotalConnections = 0 ∧
    (pollIteration defaultMetricsInterval staleGauges
        (.ret (some [("version", "1.2.3"), ("pid", "42")]) (some [])
          none)).1.katsubushiCmdGet = 0 ∧
    (pollIteration defaultMetricsInterval staleGauges
        (.ret (some [("version", "1.2.3"), ("pid", "42")]) (some [])
          none)).1.katsubushiGetHits = 0 ∧
    (pollIteration defaultMetricsInterval staleGauges
        (.ret (some [("version", "1.2.3"), ("pid", "42")]) (some [])
          none)).1.katsubushiGetMisses = 0 := by
  have A := absent_stat_key_publishes_zero defaultMetricsInterval staleGauges
    (some [("version", "1.2.3"), ("pid", "42")]) (some [])
    (by decide) (by decide)
  exact ⟨A.1 (by decide), A.2.1 (by decide), A.2.2.1 (by decide),
    A.2.2.2.1 (by decide), A.2.2.2.2.1 (by decide), A.2.2.2.2.2 (by decide)⟩

theorem handleLine_cont_invariant (pf : String → Option ℚ) (info : InfoMap)
    (stats : StatMap) (s : String) (i2 : InfoMap) (s2 : StatMap)
    (hinfo : ∀ k v, (k, v) ∈ info → k = "pid" ∨ k = "version")
    (hstats : ∀ k v, (k, v) ∈ stats → k ≠ "pid" ∧ k ≠ "version")
    (h : handleLine pf info stats s = .cont i2 s2) :
    (∀ k v, (k, v) ∈ i2 → k = "pid" ∨ k = "version") ∧
      (∀ k v, (k, v) ∈ s2 → k ≠ "pid" ∧ k ≠ "version") := by
  simp only [handleLine] at h
  split at h
  · simp at h
  · rename_i t0 h0
    by_cases hstat : t0 = "STAT"
    · rw [if_pos hstat] at h
      split at h
      · simp at h
      · rename_i t1 h1
        by_cases hpv : t1 = "pid" ∨ t1 = "version"
        · rw [if_pos hpv] at h
          split at h
          · simp at h
          · rename_i t2 h2
            injection h with hi hs
            subst hi
            subst hs
            refine ⟨?_, hstats⟩
            intro k v hm
            rcases mem_mapInsert info t1 t2 (k, v) hm with hm1 | hm1
            · exact hinfo k v hm1
            · rw [Prod.mk.injEq] at hm1
              obtain ⟨rfl, rfl⟩ := hm1
              exact hpv
        · rw [if_neg hpv] at h
          split at h
          · simp at h
          · rename_i t2 h2
            split at h
            · rename_i f hf
              injection h with hi hs
              subst hi
              subst hs
              refine ⟨hinfo, ?_⟩
              intro k v hm
              rcases mem_mapInsert stats t1 f (k, v) hm with hm1 | hm1
              · exact hstats k v hm1
              · rw [Prod.mk.injEq] at hm1
                obtain ⟨rfl, rfl⟩ := hm1
                push_neg at hpv
                exact hpv
            · simp at h
    · rw [if_neg hstat] at h
      injection h with hi hs
      subst hi
      subst hs
      exact ⟨hinfo, hstats⟩

theorem scanLoop_key_invariant (pf : String → Option ℚ) (lines : List String) :
    ∀ (info : InfoMap) (stats : StatMap) (readErr : Bool)
      (info' : InfoMap) (stats' : StatMap) (e : Option GoError),
      (∀ k v, (k, v) ∈ info → k = "pid" ∨ k = "version") →
      (∀ k v, (k, v) ∈ stats → k ≠ "pid" ∧ k ≠ "version") →
      scanLoop pf lines info stats readErr = .ret (some info') (some stats') e →
      (∀ k v, (k, v) ∈ info' → k = "pid" ∨ k = "version") ∧
        (∀ k v, (k, v) ∈ stats' → k ≠ "pid" ∧ k ≠ "version") := by
  induction lines with
  | nil =>
    intro info stats readErr info' stats' e hinfo hstats h
    rw [scanLoop_nil] at h
    injection h with hi hs he
    injection hi with hi
    injection hs with hs
    subst hi
    subst hs
    exact ⟨hinfo, hstats⟩
  | cons s rest ih =>
    intro info stats readErr info' stats' e hinfo hstats h
    rw [scanLoop_cons] at h
    by_cases hEnd : s = "END"
    · rw [if_pos hEnd] at h
      injection h with hi hs he
      injection hi with hi
      injection hs with hs
      subst hi
      subst hs
      exact ⟨hinfo, hstats⟩
    · rw [if_neg hEnd] at h
      cases hl : handleLine pf info stats s with
      | cont i2 s2 =>
        rw [hl] at h
        obtain ⟨h2i, h2s⟩ :=
          handleLine_cont_invariant pf info stats s i2 s2 hinfo hstats hl
        exact ih i2 s2 readErr info' stats' e h2i h2s h
      | err tok => rw [hl] at h; simp at h
      | oob => rw [hl] at h; simp at h

/-- C4: in any parsed reply, the keys of InfoFields are exactly drawn from
`pid` and `version`, and no `pid` or `version` key ever reaches
StatFields: each `STAT` line contributes to exactly one of the two
maps. -/
theorem info_stat_key_partition (pf : String → Option ℚ)
    (lines : List String) (readErr : Bool) (info : InfoMap) (stats : StatMap)
    (e : Option GoError)
    (h : getKatsubushiStats pf (.ok lines readErr) =
      .ret (some info) (some stats) e) :
    (∀ k v, (k, v) ∈ info → k = "pid" ∨ k = "version") ∧
      (∀ k v, (k, v) ∈ stats → k ≠ "pid" ∧ k ≠ "version") :=
  scanLoop_key_invariant pf lines [] [] readErr info stats e
    (by simp) (by simp) h

/-- C4 witness: on a concrete reply, `version` lands in InfoFields and
`uptime` lands in StatFields, on the right sides of the partition. -/
theorem info_stat_key_partition_witness :
    (("version" : String) = "pid" ∨ ("version" : String) = "version") ∧
      (("uptime" : String) ≠ "pid" ∧ ("uptime" : String) ≠ "version") := by
  have A := info_stat_key_partition parseSimpleFloat
    ["STAT version 1.2.3", "STAT pid 42", "STAT uptime 100", "END"] false
    [("version", "1.2.3"), ("pid", "42")] [("uptime", 100)] none (by decide)
  exact ⟨A.1 "version" "1.2.3" (by decide), A.2 "uptime" 100 (by decide)⟩

/-- C7 counterexample: the stream consisting of the single line
`STAT uptime abc` ends without `END`, yet parsing does not terminate
without error: it returns nil maps and a parse error, not the accumulated
(empty) maps with a nil error. -/
theorem eof_without_end_error_counterexample :
    ¬ ("END" ∈ ["STAT uptime abc"]) ∧
      getKatsubushiStats parseSimpleFloat (.ok ["STAT uptime abc"] false) =
        .ret none none (some (.parseErr "abc")) := by
  constructor
  · decide
  · decide

/-- C7 (amended): for every stream that hits end-of-stream without an
`END` line and without a read error, and whose lines are all processed
without a float-parse failure or an out-of-bounds access, parsing
terminates without error and returns exactly the accumulated InfoFields
and StatFields. -/
theorem eof_without_end_clean_returns_accumulated (pf : String → Option ℚ)
    (lines : List String) (info : InfoMap) (stats : StatMap)
    (h : scanClean pf lines [] [] = some (info, stats)) :
    getKatsubushiStats pf (.ok lines false) =
      .ret (some info) (some stats) none := by
  show scanLoop pf lines [] [] false = _
  have happ := scanLoop_append_of_scanClean pf lines [] [] info stats h [] false
  rw [List.append_nil] at happ
  rw [happ, scanLoop_nil]
  rfl

/-- C7 witness: a stream holding only `STAT pid 42` and no `END` returns
the accumulated pid binding with a nil error. -/
theorem eof_without_end_clean_returns_accumulated_witness :
    getKatsubushiStats parseSimpleFloat (.ok ["STAT pid 42"] false) =
      .ret (some [("pid", "42")]) (some []) none :=
  eof_without_end_clean_returns_accumulated parseSimpleFloat ["STAT pid 42"]
    [("pid", "42")] [] (by decide)

/-- C8: parsing the same well-formed (`END`-terminated) byte stream twice
yields identical InfoFields and identical StatFields: the parse result is
a pure function of the stream, with no hidden state between runs. -/
theorem parse_idempotent (pf : String → Option ℚ) (lines : List String)
    (readErr : Bool) (_hWf : "END" ∈ lines)
    (info1 info2 : Option InfoMap) (stats1 stats2 : Option StatMap)
    (e1 e2 : Option GoError)
    (h1 : getKatsubushiStats pf (.ok lines readErr) = .ret info1 stats1 e1)
    (h2 : getKatsubushiStats pf (.ok lines readErr) = .ret info2 stats2 e2) :
    info1 = info2 ∧ stats1 = stats2 := by
  rw [h1] at h2
  injection h2 with hi hs he
  exact ⟨hi, hs⟩

/-- C8 witness: two parses of `STAT pid 42` / `END` agree on both maps. -/
theorem parse_idempotent_witness :
    (some [(("pid" : String), ("42" : String))] : Option InfoMap) =
        some [("pid", "42")] ∧
      (some ([] : StatMap)) = some ([] : StatMap) :=
  parse_idempotent parseSimpleFloat ["STAT pid 42", "END"] false (by decide)
    (some [("pid", "42")]) (some [("pid", "42")]) (some []) (some [])
    none none (by decide) (by decide)

/-- C9: the error-return shapes of `getKatsubushiStats` are asymmetric: a
dial failure and a float-parse failure both return nil maps with the
error, while a scanner read error returns the partially accumulated
non-nil maps together with the non-nil scan error. -/
theorem error_return_shapes (pf : String → Option ℚ) :
    (getKatsubushiStats pf .dialFailure = .ret none none (some .dialErr)) ∧
      (∀ (pre post : List String) (s : String) (info : InfoMap)
          (stats : StatMap) (v : String) (readErr : Bool),
        scanClean pf pre [] [] = some (info, stats) →
        handleLine pf info stats s = .err v →
        getKatsubushiStats pf (.ok (pre ++ s :: post) readErr) =
          .ret none none (some (.parseErr v))) ∧
      (∀ (lines : List String) (info : InfoMap) (stats : StatMap),
        scanClean pf lines [] [] = some (info, stats) →
        getKatsubushiStats pf (.ok lines true) =
          .ret (some info) (some stats) (some .scanErr)) := by
  refine ⟨rfl, ?_, ?_⟩
  · intro pre post s info stats v readErr hpre hline
    have hEnd : s ≠ "END" := by
      intro hs
      subst hs
      rw [handleLine_non_stat pf info stats "END" (by decide)] at hline
      simp at hline
    show scanLoop pf (pre ++ s :: post) [] [] readErr = _
    rw [scanLoop_append_of_scanClean pf pre [] [] info stats hpre
      (s :: post) readErr]
    rw [scanLoop_cons]
    simp [hEnd, hline]
  · intro lines info stats h
    show scanLoop pf lines [] [] true = _
    have happ := scanLoop_append_of_scanClean pf lines [] [] info stats h [] true
    rw [List.append_nil] at happ
    rw [happ, scanLoop_nil]
    rfl

/-- C9 witness: the three return shapes at concrete inputs: dial failure
and parse failure give nil maps, a read error after `STAT pid 42` gives
the accumulated non-nil maps plus the scan error. -/
theorem error_return_shapes_witness :
    (getKatsubushiStats parseSimpleFloat .dialFailure =
        .ret none none (some .dialErr)) ∧
      (getKatsubushiStats parseSimpleFloat (.ok ["STAT cmd_get abc"] false) =
        .ret none none (some (.parseErr "abc"))) ∧
      (getKatsubushiStats parseSimpleFloat (.ok ["STAT pid 42"] true) =
        .ret (some [("pid", "42")]) (some []) (some .scanErr)) := by
  have A := error_return_shapes parseSimpleFloat
  refine ⟨A.1, ?_, ?_⟩
  · have h2 := A.2.1 [] [] "STAT cmd_get abc" [] [] "abc" false
      (by decide) (by decide)
    simpa using h2
  · exact A.2.2 ["STAT pid 42"] [("pid", "42")] [] (by decide)

example : goSplit "" = [""] := by decide
example : goSplit "STAT uptime 100" = ["STAT", "uptime", "100"] := by decide
example : goSplit "a  b" = ["a", "", "b"] := by decide
example : scanLoop parseSimpleFloat ["STAT"] [] [] false = .oob := by decide
example :
    scanLoop parseSimpleFloat
      ["STAT version 1.2.3", "STAT pid 42", "STAT uptime 100", "END"] [] [] false =
    .ret (some [("version", "1.2.3"), ("pid", "42")]) (some [("uptime", 100)]) none := by
  decide
